import Mathlib

/-!
Verification of the record validators of the pokemon-data.json repository.

The four validator scripts (verify-pokedex, verify-moves, verify-items,
verify-types) all operate on untrusted values deserialized from JSON.  We
embed JSON values as the inductive `Json` below and translate each
validator function directly from its TypeScript source.

JavaScript semantics that matter to the validators and are therefore
modelled explicitly:
* `typeof x === 'object'` holds for plain objects, arrays and `null`;
  the guard `typeof x !== 'object' || x === null` therefore lets arrays
  through (`isObjectLike`).
* `'k' in x` on an array is false for every required key (the required
  keys are never array indices nor `length`), so an array contributes an
  empty field list (`topFields`).
* `isNaN` distinguishes `NaN` from every other number; the dataset's
  numeric fields are integers, so JS numbers are modelled as `JsNumber`
  with a separate `nan` constructor (infinities behave like any other
  non-`NaN`, non-zero number for every check performed here).
-/

/-- A JavaScript number as observed by the validators: either `NaN` or an
ordinary value (the datasets only contain integers). -/
inductive JsNumber where
  | nan : JsNumber
  | val : Int → JsNumber

/-- A JSON value. Objects are ordered association lists of string keys
(JSON.parse produces objects with pairwise distinct keys, but nothing here
assumes that). -/
inductive Json where
  | null : Json
  | bool : Bool → Json
  | num : JsNumber → Json
  | str : String → Json
  | arr : List Json → Json
  | obj : List (String × Json) → Json

/-- First value stored under a key, as JS property lookup on a plain object. -/
def lookupKey : List (String × Json) → String → Option Json
  | [], _ => none
  | (k, v) :: rest, key => if k = key then some v else lookupKey rest key

/-- The JS `'key' in x` test. -/
def hasKey (fs : List (String × Json)) (k : String) : Bool :=
  (lookupKey fs k).isSome

/-- `key` is present and its value satisfies `p`; this is the shape of every
`('key' in x) && predicate(x.key)` test in the scripts (their sources write
the negation `!('key' in x) || !predicate(x.key)`). -/
def keySatisfies (fs : List (String × Json)) (k : String) (p : Json → Bool) : Bool :=
  match lookupKey fs k with
  | some v => p v
  | none => false

/-- `typeof x === 'object' && x !== null`: plain objects and arrays. -/
def isObjectLike : Json → Bool
  | Json.obj _ => true
  | Json.arr _ => true
  | _ => false

/-- The string-keyed fields the validators can observe on a value that
passed the object guard.  Arrays pass the guard but none of the required
keys is an array index or `length`, so an array has no observable fields. -/
def topFields : Json → List (String × Json)
  | Json.obj fs => fs
  | _ => []

/-- Fields of a value that passes `value && typeof value === 'object' &&
value !== null` (the container test used before descending into `name`,
`base`, `evolution` and `profile`): objects and arrays qualify, and on an
array the subsequent string-keyed lookups all miss. -/
def containerFields : Json → Option (List (String × Json))
  | Json.obj fs => some fs
  | Json.arr _ => some []
  | _ => none

/-- The source's `isNonEmptyString`: `typeof value === 'string' &&
value.trim().length > 0`.  A trimmed string is non-empty exactly when the
string contains some non-whitespace character, which is how the test is
rendered here (keeping it structurally recursive). -/
def isNonEmptyString : Json → Bool
  | Json.str s => s.data.any (fun c => !(c.isWhitespace))
  | _ => false

/-- The source's `isNumber`: `typeof value === 'number' && !isNaN(value)`. -/
def isNumber : Json → Bool
  | Json.num JsNumber.nan => false
  | Json.num (JsNumber.val _) => true
  | _ => false

def isString : Json → Bool
  | Json.str _ => true
  | _ => false

/-- The source's `isStringArray`: an array whose every element is a string. -/
def isStringArray : Json → Bool
  | Json.arr xs => xs.all isString
  | _ => false

/-- `Array.isArray`. -/
def isArray : Json → Bool
  | Json.arr _ => true
  | _ => false

/-- `.length` of an array (only ever read after `Array.isArray` succeeded). -/
def arrayLength : Json → Nat
  | Json.arr xs => xs.length
  | _ => 0

/-- The container test used on `evolution` (descended into for no sub-keys). -/
def isContainer (v : Json) : Bool :=
  (containerFields v).isSome

/-- `if (!missingKeys.includes(key)) missingKeys.push(key)`. -/
def pushIfAbsent (l : List String) (k : String) : List String :=
  if l.contains k then l else l ++ [k]

/-- One guarded field check, the repeated block
`if (!('key' in x) || !p(x.key)) { if (!missingKeys.includes(label)) missingKeys.push(label) }`.
The lookup key and the reported label differ for the nested profile checks
(`'height'` vs `'profile.height'`). -/
def checkField (l : List String) (fs : List (String × Json)) (key label : String)
    (p : Json → Bool) : List String :=
  if !(keySatisfies fs key p) then pushIfAbsent l label else l

/-- A nested-object check block: report `key` when the container test fails,
otherwise scan `subKeys` in order and push `key ++ "." ++ k` for every
sub-key that is absent or fails `p` (these pushes are unguarded in the
source; the loop is rendered as filter-then-map, which pushes the same
elements in the same order). -/
def checkNested (l : List String) (fs : List (String × Json)) (key : String)
    (subKeys : List String) (p : Json → Bool) : List String :=
  match (lookupKey fs key).bind containerFields with
  | none => pushIfAbsent l key
  | some sub =>
      l ++ (subKeys.filter (fun k => !(keySatisfies sub k p))).map (fun k => key ++ "." ++ k)

namespace Pokedex

def REQUIRED_POKEMON_KEYS : List String :=
  ["id", "name", "type", "base", "species", "description", "evolution", "profile"]

def REQUIRED_NAME_KEYS : List String := ["english", "japanese", "chinese", "french"]

def REQUIRED_BASE_KEYS : List String :=
  ["HP", "Attack", "Defense", "Sp. Attack", "Sp. Defense", "Speed"]

def REQUIRED_PROFILE_KEYS : List String := ["height", "weight", "egg", "ability", "gender"]

/-- The profile block of `validatePokemon`: a presence loop over the profile
keys (unguarded pushes of dotted names) followed by five guarded per-key
shape checks. -/
def checkProfile (l : List String) (fs : List (String × Json)) : List String :=
  match (lookupKey fs "profile").bind containerFields with
  | none => pushIfAbsent l "profile"
  | some profile =>
      let l := l ++ (REQUIRED_PROFILE_KEYS.filter (fun k => !(hasKey profile k))).map
        (fun k => "profile." ++ k)
      let l := checkField l profile "height" "profile.height" isNonEmptyString
      let l := checkField l profile "weight" "profile.weight" isNonEmptyString
      let l := checkField l profile "egg" "profile.egg" isStringArray
      let l := checkField l profile "ability" "profile.ability" isArray
      checkField l profile "gender" "profile.gender" isNonEmptyString

/-- Body of `validatePokemon` after the non-object guard, operating on the
record's observable fields. -/
def validateFields (p : List (String × Json)) : List String :=
  let missingKeys := REQUIRED_POKEMON_KEYS.filter (fun k => !(hasKey p k))
  let missingKeys := checkField missingKeys p "id" "id" isNumber
  let missingKeys := checkNested missingKeys p "name" REQUIRED_NAME_KEYS isNonEmptyString
  let missingKeys := checkField missingKeys p "type" "type"
    (fun v => isStringArray v && !(arrayLength v == 0))
  let missingKeys := checkNested missingKeys p "base" REQUIRED_BASE_KEYS isNumber
  let missingKeys := checkField missingKeys p "species" "species" isNonEmptyString
  let missingKeys := checkField missingKeys p "description" "description" isNonEmptyString
  let missingKeys := checkField missingKeys p "evolution" "evolution" isContainer
  checkProfile missingKeys p

/-- `validatePokemon` from scripts/verify-pokedex.ts. -/
def validatePokemon (pokemon : Json) : List String :=
  if !(isObjectLike pokemon) then REQUIRED_POKEMON_KEYS
  else validateFields (topFields pokemon)

end Pokedex

namespace Moves

def REQUIRED_MOVE_KEYS : List String :=
  ["id", "name", "type", "category", "pp", "power", "accuracy"]

def REQUIRED_NAME_KEYS : List String := ["english", "japanese", "french", "chinese"]

/-- Body of `validateMove` after the non-object guard. -/
def validateFields (m : List (String × Json)) : List String :=
  let missingKeys := REQUIRED_MOVE_KEYS.filter (fun k => !(hasKey m k))
  let missingKeys := checkField missingKeys m "id" "id" isNonEmptyString
  let missingKeys := checkNested missingKeys m "name" REQUIRED_NAME_KEYS isNonEmptyString
  let missingKeys := checkField missingKeys m "type" "type" isNonEmptyString
  let missingKeys := checkField missingKeys m "category" "category" isNonEmptyString
  let missingKeys := checkField missingKeys m "pp" "pp" isNonEmptyString
  let missingKeys := checkField missingKeys m "power" "power" isNonEmptyString
  checkField missingKeys m "accuracy" "accuracy" isNonEmptyString

/-- `validateMove` from scripts/verify-moves.ts.  The `allowedTypes`
argument is declared by the source but never read in the function body. -/
def validateMove (move : Json) (allowedTypes : List String) : List String :=
  if !(isObjectLike move) then REQUIRED_MOVE_KEYS
  else validateFields (topFields move)

end Moves

namespace Items

def REQUIRED_ITEM_KEYS : List String := ["id", "name", "type", "description"]

def REQUIRED_NAME_KEYS : List String := ["english", "japanese", "chinese"]

/-- Body of `validateItem` after the non-object guard. -/
def validateFields (i : List (String × Json)) : List String :=
  let missingKeys := REQUIRED_ITEM_KEYS.filter (fun k => !(hasKey i k))
  let missingKeys := checkField missingKeys i "id" "id" isNumber
  let missingKeys := checkNested missingKeys i "name" REQUIRED_NAME_KEYS isNonEmptyString
  let missingKeys := checkField missingKeys i "type" "type" isNonEmptyString
  checkField missingKeys i "description" "description" isNonEmptyString

/-- `validateItem` from scripts/verify-items.ts. -/
def validateItem (item : Json) : List String :=
  if !(isObjectLike item) then REQUIRED_ITEM_KEYS
  else validateFields (topFields item)

end Items

namespace Types

def REQUIRED_TYPE_KEYS : List String :=
  ["english", "chinese", "japanese", "effective", "ineffective", "no_effect"]

/-- Body of `validateType` after the non-object guard. -/
def validateFields (t : List (String × Json)) : List String :=
  let missingKeys := REQUIRED_TYPE_KEYS.filter (fun k => !(hasKey t k))
  let missingKeys := checkField missingKeys t "english" "english" isNonEmptyString
  let missingKeys := checkField missingKeys t "chinese" "chinese" isNonEmptyString
  let missingKeys := checkField missingKeys t "japanese" "japanese" isNonEmptyString
  let missingKeys := checkField missingKeys t "effective" "effective" isStringArray
  let missingKeys := checkField missingKeys t "ineffective" "ineffective" isStringArray
  checkField missingKeys t "no_effect" "no_effect" isStringArray

/-- `validateType` from scripts/verify-types.ts. -/
def validateType (type : Json) : List String :=
  if !(isObjectLike type) then REQUIRED_TYPE_KEYS
  else validateFields (topFields type)

end Types

/-! ## Specification-side record predicates

The following predicates state, per dataset, that a record supplies every
required top-level field and every required nested sub-field with the
shape required by the spec's data model (non-empty strings after
trimming, genuine non-`NaN` numbers, arrays of strings, nested objects; a
Pokemon's `type` is a non-empty list of type strings and its
`profile.ability` a list of name/hidden-flag pairs).  They are written
from the spec's data model, to be compared with the validators. -/

/-- The value is an object all of whose listed keys hold values satisfying `p`. -/
def isObjAll (keys : List String) (p : Json → Bool) : Json → Bool :=
  fun v =>
    match v with
    | Json.obj nfs => keys.all (fun k => keySatisfies nfs k p)
    | _ => false

/-- A two-element array of strings, the shape of one ability entry. -/
def isStringPair : Json → Bool
  | Json.arr [Json.str _, Json.str _] => true
  | _ => false

/-- The data model's ability list: an array of name/hidden-flag string pairs. -/
def isAbilityArray : Json → Bool
  | Json.arr xs => xs.all isStringPair
  | _ => false

/-- A plain object. -/
def isObj : Json → Bool
  | Json.obj _ => true
  | _ => false

/-- A Pokemon record that fully conforms to the spec's data model. -/
def conformsPokemon (j : Json) : Bool :=
  match j with
  | Json.obj fs =>
      keySatisfies fs "id" isNumber &&
      keySatisfies fs "name" (isObjAll Pokedex.REQUIRED_NAME_KEYS isNonEmptyString) &&
      keySatisfies fs "type" (fun v => isStringArray v && !(arrayLength v == 0)) &&
      keySatisfies fs "base" (isObjAll Pokedex.REQUIRED_BASE_KEYS isNumber) &&
      keySatisfies fs "species" isNonEmptyString &&
      keySatisfies fs "description" isNonEmptyString &&
      keySatisfies fs "evolution" isObj &&
      keySatisfies fs "profile" (fun v =>
        match v with
        | Json.obj pfs =>
            keySatisfies pfs "height" isNonEmptyString &&
            keySatisfies pfs "weight" isNonEmptyString &&
            keySatisfies pfs "egg" isStringArray &&
            keySatisfies pfs "ability" isAbilityArray &&
            keySatisfies pfs "gender" isNonEmptyString
        | _ => false)
  | _ => false

/-- A move record that fully conforms to the spec's data model (pp, power
and accuracy are stored as strings). -/
def conformsMove (j : Json) : Bool :=
  match j with
  | Json.obj fs =>
      keySatisfies fs "id" isNonEmptyString &&
      keySatisfies fs "name" (isObjAll Moves.REQUIRED_NAME_KEYS isNonEmptyString) &&
      keySatisfies fs "type" isNonEmptyString &&
      keySatisfies fs "category" isNonEmptyString &&
      keySatisfies fs "pp" isNonEmptyString &&
      keySatisfies fs "power" isNonEmptyString &&
      keySatisfies fs "accuracy" isNonEmptyString
  | _ => false

/-- An item record that fully conforms to the spec's data model. -/
def conformsItem (j : Json) : Bool :=
  match j with
  | Json.obj fs =>
      keySatisfies fs "id" isNumber &&
      keySatisfies fs "name" (isObjAll Items.REQUIRED_NAME_KEYS isNonEmptyString) &&
      keySatisfies fs "type" isNonEmptyString &&
      keySatisfies fs "description" isNonEmptyString
  | _ => false

/-- A type record that fully conforms to the spec's data model. -/
def conformsType (j : Json) : Bool :=
  match j with
  | Json.obj fs =>
      keySatisfies fs "english" isNonEmptyString &&
      keySatisfies fs "chinese" isNonEmptyString &&
      keySatisfies fs "japanese" isNonEmptyString &&
      keySatisfies fs "effective" isStringArray &&
      keySatisfies fs "ineffective" isStringArray &&
      keySatisfies fs "no_effect" isStringArray
  | _ => false

/-- The non-object inputs named by the spec: null, a string, a number, or
an array.  Arrays pass the scripts' typeof guard (`typeof [] === 'object'`)
but own none of the required string keys. -/
def nonObjectInput : Json → Bool
  | Json.null => true
  | Json.str _ => true
  | Json.num _ => true
  | Json.arr _ => true
  | _ => false

/-! ## The validator programs

Each script's `main` reads its dataset, runs the record validator over
every record in order, collects failure descriptors, writes the JSON
report file, prints a console summary, and sets the process exit code to
1 when any record failed.  `main` is modelled as a function from the
loaded dataset to the ordered list of observable output events plus the
final exit code.  The report's ISO-8601 timestamp is wall-clock input
from the environment and carries no validation content, so it is omitted
from the report structure.  For the moves script, the allow-list of type
names is computed from the separately loaded types file at startup; that
set is modelled as a parameter here (`validateMove` never reads it). -/

/-- An observable output action of a validator program, in program order:
writing the report file or printing one console line. -/
inductive Event (R : Type) where
  | writeReport : R → Event R
  | print : String → Event R

/-- `'key' in r && typeof r.key === 'number'` yields the id used to label a
failing record, else the `"unknown"` sentinel (`none`). -/
def numberProp (r : Json) (key : String) : Option JsNumber :=
  if isObjectLike r then
    match lookupKey (topFields r) key with
    | some (Json.num n) => some n
    | _ => none
  else none

/-- `'key' in r && typeof r.key === 'string'` yields the string property,
else `none`. -/
def stringProp (r : Json) (key : String) : Option String :=
  if isObjectLike r then
    match lookupKey (topFields r) key with
    | some (Json.str s) => some s
    | _ => none
  else none

/-- The display name `r.name.english` when `r.name` is an object holding a
string under `english`, else `none` (`undefined` in the source). -/
def recordEnglishName (r : Json) : Option String :=
  if isObjectLike r then
    match (lookupKey (topFields r) "name").bind containerFields with
    | some nfs =>
        match lookupKey nfs "english" with
        | some (Json.str s) => some s
        | _ => none
    | none => none
  else none

/-- Console text of a numeric-or-unknown record id. -/
def idNumberText : Option JsNumber → String
  | some JsNumber.nan => "NaN"
  | some (JsNumber.val v) => toString v
  | none => "unknown"

/-- Console text of a string-or-unknown record id. -/
def idStringText : Option String → String
  | some s => s
  | none => "unknown"

/-- ` (name)` suffix printed after the id; an absent or empty name (falsy
in JS) prints nothing. -/
def nameSuffix : Option String → String
  | some s => if s = "" then "" else " (" ++ s ++ ")"
  | none => ""

/-- The per-failure type label: `Type: name` or `Unknown type` (an empty
name is falsy in JS and also prints the unknown form). -/
def typeNameText : Option String → String
  | some s => if s = "" then "Unknown type" else "Type: " ++ s
  | none => "Unknown type"

structure PokedexFailure where
  id : Option JsNumber
  name : Option String
  missingKeys : List String

structure PokedexReport where
  totalPokemon : Nat
  pokemonWithMissingKeys : Nat
  failures : List PokedexFailure

/-- The failure descriptors collected by verify-pokedex's `main`, in
dataset order. -/
def pokedexFailures (pokedex : List Json) : List PokedexFailure :=
  pokedex.filterMap fun pokemon =>
    let missingKeys := Pokedex.validatePokemon pokemon
    if 0 < missingKeys.length then
      some ⟨numberProp pokemon "id", recordEnglishName pokemon, missingKeys⟩
    else none

def pokedexReport (pokedex : List Json) : PokedexReport :=
  ⟨pokedex.length, (pokedexFailures pokedex).length, pokedexFailures pokedex⟩

/-- `main` of scripts/verify-pokedex.ts: write the report, print the
summary, exit 1 exactly when failures exist. -/
def pokedexMain (pokedex : List Json) : List (Event PokedexReport) × Nat :=
  let failures := pokedexFailures pokedex
  let events := [Event.writeReport (pokedexReport pokedex)]
  if failures.length = 0 then
    (events ++ [Event.print ("OK: " ++ toString pokedex.length ++ " Pokémon validated"),
      Event.print "Results written to: scripts/pokedex-validation.json"], 0)
  else
    (events ++ [Event.print ("Found " ++ toString failures.length ++ " Pokémon with missing keys"),
      Event.print "Results written to: scripts/pokedex-validation.json\n"] ++
      failures.flatMap (fun f =>
        [Event.print ("ID: " ++ idNumberText f.id ++ nameSuffix f.name),
         Event.print ("Missing keys: " ++ String.intercalate ", " f.missingKeys ++ "\n")]), 1)

structure MovesFailure where
  id : Option String
  name : Option String
  missingKeys : List String

structure MovesReport where
  totalMoves : Nat
  movesWithMissingKeys : Nat
  failures : List MovesFailure

def movesFailures (moves : List Json) (allowedTypes : List String) : List MovesFailure :=
  moves.filterMap fun move =>
    let missingKeys := Moves.validateMove move allowedTypes
    if 0 < missingKeys.length then
      some ⟨stringProp move "id", recordEnglishName move, missingKeys⟩
    else none

def movesReport (moves : List Json) (allowedTypes : List String) : MovesReport :=
  ⟨moves.length, (movesFailures moves allowedTypes).length, movesFailures moves allowedTypes⟩

/-- `main` of scripts/verify-moves.ts (the allow-list of official type
names is loaded from types.json at startup and passed through, unused). -/
def movesMain (moves : List Json) (allowedTypes : List String) :
    List (Event MovesReport) × Nat :=
  let failures := movesFailures moves allowedTypes
  let events := [Event.writeReport (movesReport moves allowedTypes)]
  if failures.length = 0 then
    (events ++ [Event.print ("OK: " ++ toString moves.length ++ " moves validated"),
      Event.print "Results written to: scripts/moves-validation.json"], 0)
  else
    (events ++ [Event.print ("Found " ++ toString failures.length ++ " move(s) with missing keys"),
      Event.print "Results written to: scripts/moves-validation.json\n"] ++
      failures.flatMap (fun f =>
        [Event.print ("ID: " ++ idStringText f.id ++ nameSuffix f.name),
         Event.print ("Missing keys: " ++ String.intercalate ", " f.missingKeys ++ "\n")]), 1)

structure ItemsFailure where
  id : Option JsNumber
  name : Option String
  missingKeys : List String

structure ItemsReport where
  totalItems : Nat
  itemsWithMissingKeys : Nat
  failures : List ItemsFailure

def itemsFailures (items : List Json) : List ItemsFailure :=
  items.filterMap fun item =>
    let missingKeys := Items.validateItem item
    if 0 < missingKeys.length then
      some ⟨numberProp item "id", recordEnglishName item, missingKeys⟩
    else none

def itemsReport (items : List Json) : ItemsReport :=
  ⟨items.length, (itemsFailures items).length, itemsFailures items⟩

/-- `main` of scripts/verify-items.ts. -/
def itemsMain (items : List Json) : List (Event ItemsReport) × Nat :=
  let failures := itemsFailures items
  let events := [Event.writeReport (itemsReport items)]
  if failures.length = 0 then
    (events ++ [Event.print ("OK: " ++ toString items.length ++ " items validated"),
      Event.print "Results written to: scripts/items-validation.json"], 0)
  else
    (events ++ [Event.print ("Found " ++ toString failures.length ++ " item(s) with missing keys"),
      Event.print "Results written to: scripts/items-validation.json\n"] ++
      failures.flatMap (fun f =>
        [Event.print ("ID: " ++ idNumberText f.id ++ nameSuffix f.name),
         Event.print ("Missing keys: " ++ String.intercalate ", " f.missingKeys ++ "\n")]), 1)

structure TypesFailure where
  name : Option String
  missingKeys : List String

structure TypesReport where
  totalTypes : Nat
  typesWithMissingKeys : Nat
  failures : List TypesFailure

def typesFailures (types : List Json) : List TypesFailure :=
  types.filterMap fun type =>
    let missingKeys := Types.validateType type
    if 0 < missingKeys.length then
      some ⟨stringProp type "english", missingKeys⟩
    else none

def typesReport (types : List Json) : TypesReport :=
  ⟨types.length, (typesFailures types).length, typesFailures types⟩

/-- `main` of scripts/verify-types.ts (it also loads types.json a second
time to build the never-applied allow-list of official type names; that
computation feeds nothing modelled here). -/
def typesMain (types : List Json) : List (Event TypesReport) × Nat :=
  let failures := typesFailures types
  let events := [Event.writeReport (typesReport types)]
  if failures.length = 0 then
    (events ++ [Event.print ("OK: " ++ toString types.length ++ " types validated"),
      Event.print "Results written to: scripts/types-validation.json"], 0)
  else
    (events ++ [Event.print ("Found " ++ toString failures.length ++ " type(s) with missing keys"),
      Event.print "Results written to: scripts/types-validation.json\n"] ++
      failures.flatMap (fun f =>
        [Event.print (typeNameText f.name),
         Event.print ("Missing keys: " ++ String.intercalate ", " f.missingKeys ++ "\n")]), 1)

/-! ## Concrete records used to instantiate the theorems below -/

/-- A fully conforming Pokemon record. -/
def samplePokemon : Json := Json.obj [
  ("id", Json.num (JsNumber.val 1)),
  ("name", Json.obj [("english", Json.str "Bulbasaur"), ("japanese", Json.str "フシギダネ"),
    ("chinese", Json.str "妙蛙種子"), ("french", Json.str "Bulbizarre")]),
  ("type", Json.arr [Json.str "Grass", Json.str "Poison"]),
  ("base", Json.obj [("HP", Json.num (JsNumber.val 45)), ("Attack", Json.num (JsNumber.val 49)),
    ("Defense", Json.num (JsNumber.val 49)), ("Sp. Attack", Json.num (JsNumber.val 65)),
    ("Sp. Defense", Json.num (JsNumber.val 65)), ("Speed", Json.num (JsNumber.val 45))]),
  ("species", Json.str "Seed Pokémon"),
  ("description", Json.str "A strange seed was planted on its back at birth."),
  ("evolution", Json.obj [("next", Json.arr [Json.arr [Json.str "2", Json.str "Level 16"]])]),
  ("profile", Json.obj [("height", Json.str "0.7 m"), ("weight", Json.str "6.9 kg"),
    ("egg", Json.arr [Json.str "Monster", Json.str "Grass"]),
    ("ability", Json.arr [Json.arr [Json.str "Overgrow", Json.str "false"]]),
    ("gender", Json.str "87.5:12.5")])]

/-- The fields of a fully conforming move record. -/
def sampleMoveFields : List (String × Json) := [
  ("id", Json.str "1"),
  ("name", Json.obj [("english", Json.str "Pound"), ("japanese", Json.str "はたく"),
    ("french", Json.str "Écras'Face"), ("chinese", Json.str "拍擊")]),
  ("type", Json.str "Normal"),
  ("category", Json.str "Physical"),
  ("pp", Json.str "35"),
  ("power", Json.str "40"),
  ("accuracy", Json.str "100")]

def sampleMove : Json := Json.obj sampleMoveFields

/-- A fully conforming item record. -/
def sampleItem : Json := Json.obj [
  ("id", Json.num (JsNumber.val 1)),
  ("name", Json.obj [("english", Json.str "Master Ball"), ("japanese", Json.str "マスターボール"),
    ("chinese", Json.str "大師球")]),
  ("type", Json.str "item"),
  ("description", Json.str "The best Ball with the ultimate level of performance.")]

/-- A fully conforming type record. -/
def sampleType : Json := Json.obj [
  ("english", Json.str "Fire"),
  ("chinese", Json.str "火"),
  ("japanese", Json.str "ほのお"),
  ("effective", Json.arr [Json.str "Grass", Json.str "Ice", Json.str "Bug", Json.str "Steel"]),
  ("ineffective", Json.arr [Json.str "Fire", Json.str "Water", Json.str "Rock", Json.str "Dragon"]),
  ("no_effect", Json.arr [])]

/-- The spec's end-to-end scenario 1 record: conforming in every respect
except that `profile.gender` is absent and `base.Speed` is a string. -/
def scenario1Pokemon : Json := Json.obj [
  ("id", Json.num (JsNumber.val 1)),
  ("name", Json.obj [("english", Json.str "Bulbasaur"), ("japanese", Json.str "フシギダネ"),
    ("chinese", Json.str "妙蛙種子"), ("french", Json.str "Bulbizarre")]),
  ("type", Json.arr [Json.str "Grass", Json.str "Poison"]),
  ("base", Json.obj [("HP", Json.num (JsNumber.val 45)), ("Attack", Json.num (JsNumber.val 49)),
    ("Defense", Json.num (JsNumber.val 49)), ("Sp. Attack", Json.num (JsNumber.val 65)),
    ("Sp. Defense", Json.num (JsNumber.val 65)), ("Speed", Json.str "45")]),
  ("species", Json.str "Seed Pokémon"),
  ("description", Json.str "A strange seed was planted on its back at birth."),
  ("evolution", Json.obj [("next", Json.arr [Json.arr [Json.str "2", Json.str "Level 16"]])]),
  ("profile", Json.obj [("height", Json.str "0.7 m"), ("weight", Json.str "6.9 kg"),
    ("egg", Json.arr [Json.str "Monster", Json.str "Grass"]),
    ("ability", Json.arr [Json.arr [Json.str "Overgrow", Json.str "false"]])])]

/-- scenario1Pokemon with the two defects repaired (so that the scenario
record demonstrably conforms in every other respect). -/
def scenario1Repaired : Json := Json.obj [
  ("id", Json.num (JsNumber.val 1)),
  ("name", Json.obj [("english", Json.str "Bulbasaur"), ("japanese", Json.str "フシギダネ"),
    ("chinese", Json.str "妙蛙種子"), ("french", Json.str "Bulbizarre")]),
  ("type", Json.arr [Json.str "Grass", Json.str "Poison"]),
  ("base", Json.obj [("HP", Json.num (JsNumber.val 45)), ("Attack", Json.num (JsNumber.val 49)),
    ("Defense", Json.num (JsNumber.val 49)), ("Sp. Attack", Json.num (JsNumber.val 65)),
    ("Sp. Defense", Json.num (JsNumber.val 65)), ("Speed", Json.num (JsNumber.val 45))]),
  ("species", Json.str "Seed Pokémon"),
  ("description", Json.str "A strange seed was planted on its back at birth."),
  ("evolution", Json.obj [("next", Json.arr [Json.arr [Json.str "2", Json.str "Level 16"]])]),
  ("profile", Json.obj [("height", Json.str "0.7 m"), ("weight", Json.str "6.9 kg"),
    ("egg", Json.arr [Json.str "Monster", Json.str "Grass"]),
    ("ability", Json.arr [Json.arr [Json.str "Overgrow", Json.str "false"]]),
    ("gender", Json.str "87.5:12.5")])]

/-- sampleMoveFields with `power` replaced by the em-dash string used for
status moves. -/
def moveDashFields : List (String × Json) :=
  sampleMoveFields.map (fun kv => if kv.1 = "power" then ("power", Json.str "—") else kv)

/-- sampleMoveFields with `power` replaced by the number 90. -/
def moveNumericFields : List (String × Json) :=
  sampleMoveFields.map (fun kv => if kv.1 = "power" then ("power", Json.num (JsNumber.val 90)) else kv)

/-- sampleMoveFields with `category` replaced by a non-empty string far
outside the declared enumeration. -/
def moveBananaFields : List (String × Json) :=
  sampleMoveFields.map (fun kv => if kv.1 = "category" then ("category", Json.str "Banana") else kv)

/-- A Pokemon record whose `profile.ability` is an array of non-pair
junk values (a number and a null). -/
def abilityJunkFields : List (String × Json) := [
  ("profile", Json.obj [("ability", Json.arr [Json.num (JsNumber.val 7), Json.null])])]

/-! ## Basic lemmas about the shared checking combinators -/

theorem hasKey_of_lookup {fs : List (String × Json)} {k : String} {v : Json}
    (h : lookupKey fs k = some v) : hasKey fs k = true := by
  unfold hasKey
  rw [h]
  rfl

theorem keySatisfies_of_lookup {fs : List (String × Json)} {k : String} {v : Json}
    (p : Json → Bool) (h : lookupKey fs k = some v) : keySatisfies fs k p = p v := by
  unfold keySatisfies
  rw [h]

theorem keySatisfies_exists {fs : List (String × Json)} {k : String} {p : Json → Bool}
    (h : keySatisfies fs k p = true) : ∃ v, lookupKey fs k = some v ∧ p v = true := by
  unfold keySatisfies at h
  cases hl : lookupKey fs k with
  | none => rw [hl] at h; exact absurd h (by simp)
  | some v => exact ⟨v, rfl, by rw [hl] at h; exact h⟩

theorem hasKey_of_keySatisfies {fs : List (String × Json)} {k : String} {p : Json → Bool}
    (h : keySatisfies fs k p = true) : hasKey fs k = true := by
  obtain ⟨v, hv, _⟩ := keySatisfies_exists h
  exact hasKey_of_lookup hv

theorem filter_hasKey_nil (fs : List (String × Json)) (keys : List String)
    (h : ∀ k ∈ keys, hasKey fs k = true) :
    keys.filter (fun k => !(hasKey fs k)) = [] := by
  rw [List.filter_eq_nil_iff]
  intro k hk
  simp [h k hk]

theorem not_mem_filter_hasKey (fs : List (String × Json)) (keys : List String) (k : String)
    (h : hasKey fs k = true) : k ∉ keys.filter (fun x => !(hasKey fs x)) := by
  intro hmem
  have hp := List.of_mem_filter hmem
  simp [h] at hp

theorem not_mem_filter_of_not_mem (keys : List String) (q : String → Bool) (x : String)
    (hx : x ∉ keys) : x ∉ keys.filter q :=
  fun h => hx (List.mem_of_mem_filter h)

theorem mem_pushIfAbsent (l : List String) (k x : String) :
    x ∈ pushIfAbsent l k ↔ x ∈ l ∨ x = k := by
  unfold pushIfAbsent
  by_cases hc : l.contains k
  · rw [if_pos hc]
    constructor
    · exact Or.inl
    · rintro (hx | rfl)
      · exact hx
      · exact List.mem_of_elem_eq_true hc
  · rw [if_neg hc]
    simp

theorem nodup_pushIfAbsent (l : List String) (k : String) (h : l.Nodup) :
    (pushIfAbsent l k).Nodup := by
  unfold pushIfAbsent
  by_cases hc : l.contains k
  · rw [if_pos hc]; exact h
  · rw [if_neg hc]
    refine h.append (List.nodup_singleton k) ?_
    intro a ha hak
    rw [List.mem_singleton] at hak
    subst hak
    exact hc (List.elem_eq_true_of_mem ha)

theorem checkField_pass (l : List String) (fs : List (String × Json)) (key label : String)
    (p : Json → Bool) (h : keySatisfies fs key p = true) :
    checkField l fs key label p = l := by
  unfold checkField
  simp [h]

theorem mem_checkField (l : List String) (fs : List (String × Json)) (key label : String)
    (p : Json → Bool) (x : String) :
    x ∈ checkField l fs key label p ↔ x ∈ l ∨ (keySatisfies fs key p = false ∧ x = label) := by
  unfold checkField
  by_cases hc : keySatisfies fs key p
  · simp [hc]
  · have hc2 : keySatisfies fs key p = false := by simpa using hc
    simp [hc2, mem_pushIfAbsent]

theorem not_mem_checkField (l : List String) (fs : List (String × Json)) (key label : String)
    (p : Json → Bool) (x : String) (hx : x ∉ l) (hlab : x ≠ label) :
    x ∉ checkField l fs key label p := by
  rw [mem_checkField]
  rintro (h | ⟨_, rfl⟩)
  · exact hx h
  · exact hlab rfl

theorem mem_checkField_mono (l : List String) (fs : List (String × Json)) (key label : String)
    (p : Json → Bool) (x : String) (hx : x ∈ l) : x ∈ checkField l fs key label p := by
  rw [mem_checkField]
  exact Or.inl hx

theorem mem_checkField_fail (l : List String) (fs : List (String × Json)) (key label : String)
    (p : Json → Bool) (h : keySatisfies fs key p = false) :
    label ∈ checkField l fs key label p := by
  rw [mem_checkField]
  exact Or.inr ⟨h, rfl⟩

theorem nodup_checkField (l : List String) (fs : List (String × Json)) (key label : String)
    (p : Json → Bool) (h : l.Nodup) : (checkField l fs key label p).Nodup := by
  unfold checkField
  by_cases hc : keySatisfies fs key p <;> simp [hc]
  · exact h
  · exact nodup_pushIfAbsent l label h

theorem checkField_subset (l : List String) (fs : List (String × Json)) (key label : String)
    (p : Json → Bool) (A : List String) (hl : ∀ x ∈ l, x ∈ A) (hA : label ∈ A) :
    ∀ x ∈ checkField l fs key label p, x ∈ A := by
  intro x hx
  rcases (mem_checkField l fs key label p x).mp hx with h | ⟨_, rfl⟩
  · exact hl x h
  · exact hA

theorem strPrefix_injective (a : String) : Function.Injective (fun s => a ++ s) := by
  intro b c h
  simp only at h
  have hd : (a ++ b).data = (a ++ c).data := by rw [h]
  rw [String.data_append, String.data_append] at hd
  exact String.ext (List.append_cancel_left hd)

theorem checkNested_pass (l : List String) (fs : List (String × Json)) (key : String)
    (subKeys : List String) (p : Json → Bool) (sub : List (String × Json))
    (hl : lookupKey fs key = some (Json.obj sub))
    (hall : ∀ k ∈ subKeys, keySatisfies sub k p = true) :
    checkNested l fs key subKeys p = l := by
  unfold checkNested
  rw [hl]
  show l ++ (subKeys.filter (fun k => !(keySatisfies sub k p))).map (fun k => key ++ "." ++ k) = l
  rw [List.filter_eq_nil_iff.mpr (fun k hk => by simp [hall k hk])]
  simp

theorem mem_checkNested (l : List String) (fs : List (String × Json)) (key : String)
    (subKeys : List String) (p : Json → Bool) (x : String)
    (hx : x ∈ checkNested l fs key subKeys p) :
    x ∈ l ∨ x = key ∨ ∃ k ∈ subKeys, x = key ++ "." ++ k := by
  unfold checkNested at hx
  cases hb : (lookupKey fs key).bind containerFields with
  | none =>
      rw [hb] at hx
      rcases (mem_pushIfAbsent l key x).mp hx with h | rfl
      · exact Or.inl h
      · exact Or.inr (Or.inl rfl)
  | some sub =>
      rw [hb] at hx
      rcases List.mem_append.mp hx with h | h
      · exact Or.inl h
      · rw [List.mem_map] at h
        obtain ⟨k, hk, hkx⟩ := h
        exact Or.inr (Or.inr ⟨k, List.mem_of_mem_filter hk, hkx.symm⟩)

theorem not_mem_checkNested (l : List String) (fs : List (String × Json)) (key : String)
    (subKeys : List String) (p : Json → Bool) (x : String)
    (hx : x ∉ l) (hk : x ≠ key) (hp : ∀ k ∈ subKeys, x ≠ key ++ "." ++ k) :
    x ∉ checkNested l fs key subKeys p := by
  intro hmem
  rcases mem_checkNested l fs key subKeys p x hmem with h | rfl | ⟨k, hks, rfl⟩
  · exact hx h
  · exact hk rfl
  · exact hp k hks rfl

theorem nodup_checkNested (l : List String) (fs : List (String × Json)) (key : String)
    (subKeys : List String) (p : Json → Bool) (h : l.Nodup) (hks : subKeys.Nodup)
    (hfresh : ∀ k ∈ subKeys, (key ++ "." ++ k) ∉ l) :
    (checkNested l fs key subKeys p).Nodup := by
  unfold checkNested
  cases hb : (lookupKey fs key).bind containerFields with
  | none => exact nodup_pushIfAbsent l key h
  | some sub =>
      refine h.append (((hks.filter _).map (strPrefix_injective (key ++ "."))) : _) ?_
      intro a ha ham
      rw [List.mem_map] at ham
      obtain ⟨k, hk, rfl⟩ := ham
      exact hfresh k (List.mem_of_mem_filter hk) ha

theorem checkNested_subset (l : List String) (fs : List (String × Json)) (key : String)
    (subKeys : List String) (p : Json → Bool) (B : List String)
    (hl : ∀ x ∈ l, x ∈ B) (hkey : key ∈ B) (hpaths : ∀ k ∈ subKeys, (key ++ "." ++ k) ∈ B) :
    ∀ x ∈ checkNested l fs key subKeys p, x ∈ B := by
  intro x hx
  rcases mem_checkNested l fs key subKeys p x hx with h | rfl | ⟨k, hks, rfl⟩
  · exact hl x h
  · exact hkey
  · exact hpaths k hks

theorem keySatisfies_mono {fs : List (String × Json)} {k : String} {p q : Json → Bool}
    (himp : ∀ v, p v = true → q v = true) (h : keySatisfies fs k p = true) :
    keySatisfies fs k q = true := by
  obtain ⟨v, hv, hpv⟩ := keySatisfies_exists h
  rw [keySatisfies_of_lookup q hv]
  exact himp v hpv

theorem isArray_of_isAbilityArray (v : Json) (h : isAbilityArray v = true) : isArray v = true := by
  cases v <;> simp_all [isAbilityArray, isArray]

theorem isContainer_of_isObj (v : Json) (h : isObj v = true) : isContainer v = true := by
  cases v <;> simp_all [isObj, isContainer, containerFields]

theorem checkProfile_pass (l : List String) (fs pfs : List (String × Json))
    (hl : lookupKey fs "profile" = some (Json.obj pfs))
    (hh : keySatisfies pfs "height" isNonEmptyString = true)
    (hw : keySatisfies pfs "weight" isNonEmptyString = true)
    (he : keySatisfies pfs "egg" isStringArray = true)
    (ha : keySatisfies pfs "ability" isArray = true)
    (hg : keySatisfies pfs "gender" isNonEmptyString = true) :
    Pokedex.checkProfile l fs = l := by
  have hmem : ∀ k ∈ Pokedex.REQUIRED_PROFILE_KEYS, hasKey pfs k = true := by
    intro k hk
    simp only [Pokedex.REQUIRED_PROFILE_KEYS, List.mem_cons, List.not_mem_nil, or_false] at hk
    rcases hk with rfl | rfl | rfl | rfl | rfl
    exacts [hasKey_of_keySatisfies hh, hasKey_of_keySatisfies hw, hasKey_of_keySatisfies he,
      hasKey_of_keySatisfies ha, hasKey_of_keySatisfies hg]
  unfold Pokedex.checkProfile
  rw [hl]
  show checkField (checkField (checkField (checkField (checkField
      (l ++ (Pokedex.REQUIRED_PROFILE_KEYS.filter (fun k => !(hasKey pfs k))).map
        (fun k => "profile." ++ k))
      pfs "height" "profile.height" isNonEmptyString)
      pfs "weight" "profile.weight" isNonEmptyString)
      pfs "egg" "profile.egg" isStringArray)
      pfs "ability" "profile.ability" isArray)
      pfs "gender" "profile.gender" isNonEmptyString = l
  rw [filter_hasKey_nil pfs Pokedex.REQUIRED_PROFILE_KEYS hmem]
  rw [List.map_nil, List.append_nil]
  rw [checkField_pass _ _ _ _ _ hh, checkField_pass _ _ _ _ _ hw, checkField_pass _ _ _ _ _ he,
    checkField_pass _ _ _ _ _ ha, checkField_pass _ _ _ _ _ hg]

theorem nodup_checkProfile (l : List String) (fs : List (String × Json)) (h : l.Nodup)
    (hfresh : ∀ k ∈ Pokedex.REQUIRED_PROFILE_KEYS, ("profile." ++ k) ∉ l) :
    (Pokedex.checkProfile l fs).Nodup := by
  unfold Pokedex.checkProfile
  cases hb : (lookupKey fs "profile").bind containerFields with
  | none => exact nodup_pushIfAbsent l "profile" h
  | some profile =>
      refine nodup_checkField _ _ _ _ _ (nodup_checkField _ _ _ _ _ (nodup_checkField _ _ _ _ _
        (nodup_checkField _ _ _ _ _ (nodup_checkField _ _ _ _ _ ?_))))
      refine h.append
        (((by decide : Pokedex.REQUIRED_PROFILE_KEYS.Nodup).filter _).map
          (strPrefix_injective "profile.")) ?_
      intro a ha ham
      rw [List.mem_map] at ham
      obtain ⟨k, hk, rfl⟩ := ham
      exact hfresh k (List.mem_of_mem_filter hk) ha

theorem not_mem_checkProfile_ability (l : List String) (fs pfs : List (String × Json))
    (xs : List Json) (hx : "profile.ability" ∉ l)
    (hprof : lookupKey fs "profile" = some (Json.obj pfs))
    (hab : lookupKey pfs "ability" = some (Json.arr xs)) :
    "profile.ability" ∉ Pokedex.checkProfile l fs := by
  have hks : keySatisfies pfs "ability" isArray = true := by
    rw [keySatisfies_of_lookup isArray hab]; rfl
  unfold Pokedex.checkProfile
  rw [hprof]
  show "profile.ability" ∉ checkField (checkField (checkField (checkField (checkField
      (l ++ (Pokedex.REQUIRED_PROFILE_KEYS.filter (fun k => !(hasKey pfs k))).map
        (fun k => "profile." ++ k))
      pfs "height" "profile.height" isNonEmptyString)
      pfs "weight" "profile.weight" isNonEmptyString)
      pfs "egg" "profile.egg" isStringArray)
      pfs "ability" "profile.ability" isArray)
      pfs "gender" "profile.gender" isNonEmptyString
  refine not_mem_checkField _ _ _ _ _ _ ?_ (by decide)
  rw [checkField_pass _ _ _ _ _ hks]
  refine not_mem_checkField _ _ _ _ _ _ ?_ (by decide)
  refine not_mem_checkField _ _ _ _ _ _ ?_ (by decide)
  refine not_mem_checkField _ _ _ _ _ _ ?_ (by decide)
  intro hmem
  rcases List.mem_append.mp hmem with h | h
  · exact hx h
  · rw [List.mem_map] at h
    obtain ⟨k, hk, hkx⟩ := h
    have hke : k = "ability" :=
      strPrefix_injective "profile." (hkx.trans (by rfl : "profile.ability" = "profile." ++ "ability"))
    subst hke
    have hp := List.of_mem_filter hk
    simp [hasKey_of_lookup hab] at hp

theorem validatePokemon_obj (fs : List (String × Json)) :
    Pokedex.validatePokemon (Json.obj fs) = Pokedex.validateFields fs := rfl

theorem validateMove_obj (fs : List (String × Json)) (a : List String) :
    Moves.validateMove (Json.obj fs) a = Moves.validateFields fs := rfl

theorem validateItem_obj (fs : List (String × Json)) :
    Items.validateItem (Json.obj fs) = Items.validateFields fs := rfl

theorem validateType_obj (fs : List (String × Json)) :
    Types.validateType (Json.obj fs) = Types.validateFields fs := rfl

theorem isObjAll_elim {keys : List String} {p : Json → Bool} {v : Json}
    (h : isObjAll keys p v = true) :
    ∃ nfs, v = Json.obj nfs ∧ ∀ k ∈ keys, keySatisfies nfs k p = true := by
  cases v with
  | obj nfs =>
      refine ⟨nfs, rfl, ?_⟩
      have h2 : (keys.all (fun k => keySatisfies nfs k p)) = true := h
      exact List.all_eq_true.mp h2
  | null => exact absurd h (by simp [isObjAll])
  | bool b => exact absurd h (by simp [isObjAll])
  | num n => exact absurd h (by simp [isObjAll])
  | str s => exact absurd h (by simp [isObjAll])
  | arr xs => exact absurd h (by simp [isObjAll])

/-! ## Completeness: conforming records produce empty failure lists -/

theorem validateFields_pokedex_complete (fs : List (String × Json))
    (h : conformsPokemon (Json.obj fs) = true) : Pokedex.validateFields fs = [] := by
  simp only [conformsPokemon, Bool.and_eq_true] at h
  obtain ⟨⟨⟨⟨⟨⟨⟨hid, hname⟩, htype⟩, hbase⟩, hspec⟩, hdesc⟩, hevo⟩, hprof⟩ := h
  obtain ⟨vn, ln, pn⟩ := keySatisfies_exists hname
  obtain ⟨nfs, rfl, hnall⟩ := isObjAll_elim pn
  obtain ⟨vb, lb, pb⟩ := keySatisfies_exists hbase
  obtain ⟨bfs, rfl, hball⟩ := isObjAll_elim pb
  obtain ⟨vp, lpk, pprof⟩ := keySatisfies_exists hprof
  have hevo2 : keySatisfies fs "evolution" isContainer = true :=
    keySatisfies_mono isContainer_of_isObj hevo
  have hkeys : ∀ k ∈ Pokedex.REQUIRED_POKEMON_KEYS, hasKey fs k = true := by
    intro k hk
    simp only [Pokedex.REQUIRED_POKEMON_KEYS, List.mem_cons, List.not_mem_nil, or_false] at hk
    rcases hk with rfl | rfl | rfl | rfl | rfl | rfl | rfl | rfl
    exacts [hasKey_of_keySatisfies hid, hasKey_of_keySatisfies hname,
      hasKey_of_keySatisfies htype, hasKey_of_keySatisfies hbase,
      hasKey_of_keySatisfies hspec, hasKey_of_keySatisfies hdesc,
      hasKey_of_keySatisfies hevo, hasKey_of_keySatisfies hprof]
  cases vp with
  | obj pfs =>
      have hq : (keySatisfies pfs "height" isNonEmptyString &&
          keySatisfies pfs "weight" isNonEmptyString &&
          keySatisfies pfs "egg" isStringArray &&
          keySatisfies pfs "ability" isAbilityArray &&
          keySatisfies pfs "gender" isNonEmptyString) = true := pprof
      simp only [Bool.and_eq_true] at hq
      obtain ⟨⟨⟨⟨hh, hw⟩, heg⟩, hab⟩, hg⟩ := hq
      have hab2 : keySatisfies pfs "ability" isArray = true :=
        keySatisfies_mono isArray_of_isAbilityArray hab
      simp only [Pokedex.validateFields]
      rw [filter_hasKey_nil fs Pokedex.REQUIRED_POKEMON_KEYS hkeys]
      rw [checkField_pass _ _ _ _ _ hid]
      rw [checkNested_pass _ _ _ _ _ _ ln hnall]
      rw [checkField_pass _ _ _ _ _ htype]
      rw [checkNested_pass _ _ _ _ _ _ lb hball]
      rw [checkField_pass _ _ _ _ _ hspec]
      rw [checkField_pass _ _ _ _ _ hdesc]
      rw [checkField_pass _ _ _ _ _ hevo2]
      exact checkProfile_pass [] fs pfs lpk hh hw heg hab2 hg
  | null => exact absurd pprof (by simp)
  | bool b => exact absurd pprof (by simp)
  | num n => exact absurd pprof (by simp)
  | str s => exact absurd pprof (by simp)
  | arr xs => exact absurd pprof (by simp)

theorem validatePokemon_complete (j : Json) (h : conformsPokemon j = true) :
    Pokedex.validatePokemon j = [] := by
  cases j with
  | obj fs => exact validateFields_pokedex_complete fs h
  | null => exact absurd h (by decide)
  | bool b => exact absurd h (by simp [conformsPokemon])
  | num n => exact absurd h (by simp [conformsPokemon])
  | str s => exact absurd h (by simp [conformsPokemon])
  | arr xs => exact absurd h (by simp [conformsPokemon])

theorem validateFields_moves_complete (fs : List (String × Json))
    (h : conformsMove (Json.obj fs) = true) : Moves.validateFields fs = [] := by
  simp only [conformsMove, Bool.and_eq_true] at h
  obtain ⟨⟨⟨⟨⟨⟨hid, hname⟩, htype⟩, hcat⟩, hpp⟩, hpow⟩, hacc⟩ := h
  obtain ⟨vn, ln, pn⟩ := keySatisfies_exists hname
  obtain ⟨nfs, rfl, hnall⟩ := isObjAll_elim pn
  have hkeys : ∀ k ∈ Moves.REQUIRED_MOVE_KEYS, hasKey fs k = true := by
    intro k hk
    simp only [Moves.REQUIRED_MOVE_KEYS, List.mem_cons, List.not_mem_nil, or_false] at hk
    rcases hk with rfl | rfl | rfl | rfl | rfl | rfl | rfl
    exacts [hasKey_of_keySatisfies hid, hasKey_of_keySatisfies hname,
      hasKey_of_keySatisfies htype, hasKey_of_keySatisfies hcat,
      hasKey_of_keySatisfies hpp, hasKey_of_keySatisfies hpow, hasKey_of_keySatisfies hacc]
  simp only [Moves.validateFields]
  rw [filter_hasKey_nil fs Moves.REQUIRED_MOVE_KEYS hkeys]
  rw [checkField_pass _ _ _ _ _ hid]
  rw [checkNested_pass _ _ _ _ _ _ ln hnall]
  rw [checkField_pass _ _ _ _ _ htype]
  rw [checkField_pass _ _ _ _ _ hcat]
  rw [checkField_pass _ _ _ _ _ hpp]
  rw [checkField_pass _ _ _ _ _ hpow]
  rw [checkField_pass _ _ _ _ _ hacc]

theorem validateMove_complete (j : Json) (a : List String) (h : conformsMove j = true) :
    Moves.validateMove j a = [] := by
  cases j with
  | obj fs => exact validateFields_moves_complete fs h
  | null => exact absurd h (by decide)
  | bool b => exact absurd h (by simp [conformsMove])
  | num n => exact absurd h (by simp [conformsMove])
  | str s => exact absurd h (by simp [conformsMove])
  | arr xs => exact absurd h (by simp [conformsMove])

theorem validateFields_items_complete (fs : List (String × Json))
    (h : conformsItem (Json.obj fs) = true) : Items.validateFields fs = [] := by
  simp only [conformsItem, Bool.and_eq_true] at h
  obtain ⟨⟨⟨hid, hname⟩, htype⟩, hdesc⟩ := h
  obtain ⟨vn, ln, pn⟩ := keySatisfies_exists hname
  obtain ⟨nfs, rfl, hnall⟩ := isObjAll_elim pn
  have hkeys : ∀ k ∈ Items.REQUIRED_ITEM_KEYS, hasKey fs k = true := by
    intro k hk
    simp only [Items.REQUIRED_ITEM_KEYS, List.mem_cons, List.not_mem_nil, or_false] at hk
    rcases hk with rfl | rfl | rfl | rfl
    exacts [hasKey_of_keySatisfies hid, hasKey_of_keySatisfies hname,
      hasKey_of_keySatisfies htype, hasKey_of_keySatisfies hdesc]
  simp only [Items.validateFields]
  rw [filter_hasKey_nil fs Items.REQUIRED_ITEM_KEYS hkeys]
  rw [checkField_pass _ _ _ _ _ hid]
  rw [checkNested_pass _ _ _ _ _ _ ln hnall]
  rw [checkField_pass _ _ _ _ _ htype]
  rw [checkField_pass _ _ _ _ _ hdesc]

theorem validateItem_complete (j : Json) (h : conformsItem j = true) :
    Items.validateItem j = [] := by
  cases j with
  | obj fs => exact validateFields_items_complete fs h
  | null => exact absurd h (by decide)
  | bool b => exact absurd h (by simp [conformsItem])
  | num n => exact absurd h (by simp [conformsItem])
  | str s => exact absurd h (by simp [conformsItem])
  | arr xs => exact absurd h (by simp [conformsItem])

theorem validateFields_types_complete (fs : List (String × Json))
    (h : conformsType (Json.obj fs) = true) : Types.validateFields fs = [] := by
  simp only [conformsType, Bool.and_eq_true] at h
  obtain ⟨⟨⟨⟨⟨hen, hch⟩, hja⟩, heff⟩, hineff⟩, hnoeff⟩ := h
  have hkeys : ∀ k ∈ Types.REQUIRED_TYPE_KEYS, hasKey fs k = true := by
    intro k hk
    simp only [Types.REQUIRED_TYPE_KEYS, List.mem_cons, List.not_mem_nil, or_false] at hk
    rcases hk with rfl | rfl | rfl | rfl | rfl | rfl
    exacts [hasKey_of_keySatisfies hen, hasKey_of_keySatisfies hch,
      hasKey_of_keySatisfies hja, hasKey_of_keySatisfies heff,
      hasKey_of_keySatisfies hineff, hasKey_of_keySatisfies hnoeff]
  simp only [Types.validateFields]
  rw [filter_hasKey_nil fs Types.REQUIRED_TYPE_KEYS hkeys]
  rw [checkField_pass _ _ _ _ _ hen]
  rw [checkField_pass _ _ _ _ _ hch]
  rw [checkField_pass _ _ _ _ _ hja]
  rw [checkField_pass _ _ _ _ _ heff]
  rw [checkField_pass _ _ _ _ _ hineff]
  rw [checkField_pass _ _ _ _ _ hnoeff]

theorem validateType_complete (j : Json) (h : conformsType j = true) :
    Types.validateType j = [] := by
  cases j with
  | obj fs => exact validateFields_types_complete fs h
  | null => exact absurd h (by decide)
  | bool b => exact absurd h (by simp [conformsType])
  | num n => exact absurd h (by simp [conformsType])
  | str s => exact absurd h (by simp [conformsType])
  | arr xs => exact absurd h (by simp [conformsType])

/-! ## No duplicates in any failure list -/

theorem subset_trans_mem {l A B : List String} (hs : ∀ x ∈ l, x ∈ A)
    (hAB : ∀ x ∈ A, x ∈ B) : ∀ x ∈ l, x ∈ B :=
  fun x hx => hAB x (hs x hx)

theorem fresh_of_subset {l A : List String} (keys : List String) (key : String)
    (hsub : ∀ x ∈ l, x ∈ A)
    (hdis : ∀ k ∈ keys, (key ++ "." ++ k) ∉ A) :
    ∀ k ∈ keys, (key ++ "." ++ k) ∉ l :=
  fun k hk hmem => hdis k hk (hsub _ hmem)

theorem freshProfile_of_subset {l A : List String} (hsub : ∀ x ∈ l, x ∈ A)
    (hdis : ∀ k ∈ Pokedex.REQUIRED_PROFILE_KEYS, ("profile." ++ k) ∉ A) :
    ∀ k ∈ Pokedex.REQUIRED_PROFILE_KEYS, ("profile." ++ k) ∉ l :=
  fun k hk hmem => hdis k hk (hsub _ hmem)

theorem nodup_validateFields_pokedex (fs : List (String × Json)) :
    (Pokedex.validateFields fs).Nodup := by
  have nd0 : (Pokedex.REQUIRED_POKEMON_KEYS.filter (fun k => !(hasKey fs k))).Nodup :=
    (by decide : Pokedex.REQUIRED_POKEMON_KEYS.Nodup).filter _
  have s0 : ∀ x ∈ Pokedex.REQUIRED_POKEMON_KEYS.filter (fun k => !(hasKey fs k)),
      x ∈ Pokedex.REQUIRED_POKEMON_KEYS := fun x hx => List.mem_of_mem_filter hx
  have nd1 := nodup_checkField _ fs "id" "id" isNumber nd0
  have s1 := checkField_subset _ fs "id" "id" isNumber Pokedex.REQUIRED_POKEMON_KEYS s0 (by decide)
  have nd2 := nodup_checkNested _ fs "name" Pokedex.REQUIRED_NAME_KEYS isNonEmptyString nd1
    (by decide) (fresh_of_subset Pokedex.REQUIRED_NAME_KEYS "name" s1 (by decide))
  have s2 := checkNested_subset _ fs "name" Pokedex.REQUIRED_NAME_KEYS isNonEmptyString
    (Pokedex.REQUIRED_POKEMON_KEYS ++ ["name.english", "name.japanese", "name.chinese", "name.french"])
    (subset_trans_mem s1 (by decide)) (by decide) (by decide)
  have nd3 := nodup_checkField _ fs "type" "type"
    (fun v => isStringArray v && !(arrayLength v == 0)) nd2
  have s3 := checkField_subset _ fs "type" "type"
    (fun v => isStringArray v && !(arrayLength v == 0))
    (Pokedex.REQUIRED_POKEMON_KEYS ++ ["name.english", "name.japanese", "name.chinese", "name.french"])
    s2 (by decide)
  have nd4 := nodup_checkNested _ fs "base" Pokedex.REQUIRED_BASE_KEYS isNumber nd3
    (by decide) (fresh_of_subset Pokedex.REQUIRED_BASE_KEYS "base" s3 (by decide))
  have s4 := checkNested_subset _ fs "base" Pokedex.REQUIRED_BASE_KEYS isNumber
    (Pokedex.REQUIRED_POKEMON_KEYS ++ ["name.english", "name.japanese", "name.chinese", "name.french"]
      ++ ["base.HP", "base.Attack", "base.Defense", "base.Sp. Attack", "base.Sp. Defense", "base.Speed"])
    (subset_trans_mem s3 (by decide)) (by decide) (by decide)
  have nd5 := nodup_checkField _ fs "species" "species" isNonEmptyString nd4
  have s5 := checkField_subset _ fs "species" "species" isNonEmptyString
    (Pokedex.REQUIRED_POKEMON_KEYS ++ ["name.english", "name.japanese", "name.chinese", "name.french"]
      ++ ["base.HP", "base.Attack", "base.Defense", "base.Sp. Attack", "base.Sp. Defense", "base.Speed"])
    s4 (by decide)
  have nd6 := nodup_checkField _ fs "description" "description" isNonEmptyString nd5
  have s6 := checkField_subset _ fs "description" "description" isNonEmptyString
    (Pokedex.REQUIRED_POKEMON_KEYS ++ ["name.english", "name.japanese", "name.chinese", "name.french"]
      ++ ["base.HP", "base.Attack", "base.Defense", "base.Sp. Attack", "base.Sp. Defense", "base.Speed"])
    s5 (by decide)
  have nd7 := nodup_checkField _ fs "evolution" "evolution" isContainer nd6
  have s7 := checkField_subset _ fs "evolution" "evolution" isContainer
    (Pokedex.REQUIRED_POKEMON_KEYS ++ ["name.english", "name.japanese", "name.chinese", "name.french"]
      ++ ["base.HP", "base.Attack", "base.Defense", "base.Sp. Attack", "base.Sp. Defense", "base.Speed"])
    s6 (by decide)
  exact nodup_checkProfile _ fs nd7 (freshProfile_of_subset s7 (by decide))

theorem nodup_validateFields_moves (fs : List (String × Json)) :
    (Moves.validateFields fs).Nodup := by
  have nd0 : (Moves.REQUIRED_MOVE_KEYS.filter (fun k => !(hasKey fs k))).Nodup :=
    (by decide : Moves.REQUIRED_MOVE_KEYS.Nodup).filter _
  have s0 : ∀ x ∈ Moves.REQUIRED_MOVE_KEYS.filter (fun k => !(hasKey fs k)),
      x ∈ Moves.REQUIRED_MOVE_KEYS := fun x hx => List.mem_of_mem_filter hx
  have nd1 := nodup_checkField _ fs "id" "id" isNonEmptyString nd0
  have s1 := checkField_subset _ fs "id" "id" isNonEmptyString Moves.REQUIRED_MOVE_KEYS s0 (by decide)
  have nd2 := nodup_checkNested _ fs "name" Moves.REQUIRED_NAME_KEYS isNonEmptyString nd1
    (by decide) (fresh_of_subset Moves.REQUIRED_NAME_KEYS "name" s1 (by decide))
  have nd3 := nodup_checkField _ fs "type" "type" isNonEmptyString nd2
  have nd4 := nodup_checkField _ fs "category" "category" isNonEmptyString nd3
  have nd5 := nodup_checkField _ fs "pp" "pp" isNonEmptyString nd4
  have nd6 := nodup_checkField _ fs "power" "power" isNonEmptyString nd5
  exact nodup_checkField _ fs "accuracy" "accuracy" isNonEmptyString nd6

theorem nodup_validateFields_items (fs : List (String × Json)) :
    (Items.validateFields fs).Nodup := by
  have nd0 : (Items.REQUIRED_ITEM_KEYS.filter (fun k => !(hasKey fs k))).Nodup :=
    (by decide : Items.REQUIRED_ITEM_KEYS.Nodup).filter _
  have s0 : ∀ x ∈ Items.REQUIRED_ITEM_KEYS.filter (fun k => !(hasKey fs k)),
      x ∈ Items.REQUIRED_ITEM_KEYS := fun x hx => List.mem_of_mem_filter hx
  have nd1 := nodup_checkField _ fs "id" "id" isNumber nd0
  have s1 := checkField_subset _ fs "id" "id" isNumber Items.REQUIRED_ITEM_KEYS s0 (by decide)
  have nd2 := nodup_checkNested _ fs "name" Items.REQUIRED_NAME_KEYS isNonEmptyString nd1
    (by decide) (fresh_of_subset Items.REQUIRED_NAME_KEYS "name" s1 (by decide))
  have nd3 := nodup_checkField _ fs "type" "type" isNonEmptyString nd2
  exact nodup_checkField _ fs "description" "description" isNonEmptyString nd3

theorem nodup_validateFields_types (fs : List (String × Json)) :
    (Types.validateFields fs).Nodup := by
  have nd0 : (Types.REQUIRED_TYPE_KEYS.filter (fun k => !(hasKey fs k))).Nodup :=
    (by decide : Types.REQUIRED_TYPE_KEYS.Nodup).filter _
  have nd1 := nodup_checkField _ fs "english" "english" isNonEmptyString nd0
  have nd2 := nodup_checkField _ fs "chinese" "chinese" isNonEmptyString nd1
  have nd3 := nodup_checkField _ fs "japanese" "japanese" isNonEmptyString nd2
  have nd4 := nodup_checkField _ fs "effective" "effective" isStringArray nd3
  have nd5 := nodup_checkField _ fs "ineffective" "ineffective" isStringArray nd4
  exact nodup_checkField _ fs "no_effect" "no_effect" isStringArray nd5

set_option maxHeartbeats 1000000 in
theorem validatePokemon_nodup (j : Json) : (Pokedex.validatePokemon j).Nodup := by
  cases j with
  | obj fs => exact nodup_validateFields_pokedex fs
  | arr xs => exact nodup_validateFields_pokedex []
  | null => exact (by decide : Pokedex.REQUIRED_POKEMON_KEYS.Nodup)
  | bool b => exact (by decide : Pokedex.REQUIRED_POKEMON_KEYS.Nodup)
  | num n => exact (by decide : Pokedex.REQUIRED_POKEMON_KEYS.Nodup)
  | str s => exact (by decide : Pokedex.REQUIRED_POKEMON_KEYS.Nodup)

set_option maxHeartbeats 1000000 in
theorem validateMove_nodup (j : Json) (a : List String) : (Moves.validateMove j a).Nodup := by
  cases j with
  | obj fs => exact nodup_validateFields_moves fs
  | arr xs => exact nodup_validateFields_moves []
  | null => exact (by decide : Moves.REQUIRED_MOVE_KEYS.Nodup)
  | bool b => exact (by decide : Moves.REQUIRED_MOVE_KEYS.Nodup)
  | num n => exact (by decide : Moves.REQUIRED_MOVE_KEYS.Nodup)
  | str s => exact (by decide : Moves.REQUIRED_MOVE_KEYS.Nodup)

set_option maxHeartbeats 1000000 in
theorem validateItem_nodup (j : Json) : (Items.validateItem j).Nodup := by
  cases j with
  | obj fs => exact nodup_validateFields_items fs
  | arr xs => exact nodup_validateFields_items []
  | null => exact (by decide : Items.REQUIRED_ITEM_KEYS.Nodup)
  | bool b => exact (by decide : Items.REQUIRED_ITEM_KEYS.Nodup)
  | num n => exact (by decide : Items.REQUIRED_ITEM_KEYS.Nodup)
  | str s => exact (by decide : Items.REQUIRED_ITEM_KEYS.Nodup)

set_option maxHeartbeats 1000000 in
theorem validateType_nodup (j : Json) : (Types.validateType j).Nodup := by
  cases j with
  | obj fs => exact nodup_validateFields_types fs
  | arr xs => exact nodup_validateFields_types []
  | null => exact (by decide : Types.REQUIRED_TYPE_KEYS.Nodup)
  | bool b => exact (by decide : Types.REQUIRED_TYPE_KEYS.Nodup)
  | num n => exact (by decide : Types.REQUIRED_TYPE_KEYS.Nodup)
  | str s => exact (by decide : Types.REQUIRED_TYPE_KEYS.Nodup)

/-! ## Behaviour of the four `main` programs -/

theorem pokedexFailures_empty_iff (ds : List Json) :
    (pokedexFailures ds).length = 0 ↔ ∀ p ∈ ds, Pokedex.validatePokemon p = [] := by
  rw [List.length_eq_zero]
  unfold pokedexFailures
  rw [List.filterMap_eq_nil_iff]
  constructor
  · intro h p hp
    have h2 := h p hp
    by_contra hne
    have hpos : 0 < (Pokedex.validatePokemon p).length := List.length_pos.mpr hne
    simp only [hpos, if_true] at h2
    exact Option.noConfusion h2
  · intro h p hp
    simp [h p hp]

theorem pokedexMain_spec (ds : List Json) :
    (pokedexMain ds).1.head? = some (Event.writeReport (pokedexReport ds)) ∧
    ((pokedexMain ds).2 = 0 ↔ ∀ p ∈ ds, Pokedex.validatePokemon p = []) ∧
    ((pokedexMain ds).2 = 1 ↔ ∃ p ∈ ds, Pokedex.validatePokemon p ≠ []) := by
  have hhead : (pokedexMain ds).1.head? = some (Event.writeReport (pokedexReport ds)) := by
    unfold pokedexMain
    by_cases h : (pokedexFailures ds).length = 0 <;> simp [h]
  have hexit : (pokedexMain ds).2 = if (pokedexFailures ds).length = 0 then 0 else 1 := by
    unfold pokedexMain
    by_cases h : (pokedexFailures ds).length = 0 <;> simp [h]
  refine ⟨hhead, ?_, ?_⟩
  · rw [hexit]
    by_cases h : (pokedexFailures ds).length = 0
    · rw [if_pos h]
      exact iff_of_true rfl ((pokedexFailures_empty_iff ds).mp h)
    · rw [if_neg h]
      exact iff_of_false (by decide)
        (fun hall => h ((pokedexFailures_empty_iff ds).mpr hall))
  · rw [hexit]
    by_cases h : (pokedexFailures ds).length = 0
    · rw [if_pos h]
      refine iff_of_false (by decide) ?_
      rintro ⟨p, hp, hne⟩
      exact hne (((pokedexFailures_empty_iff ds).mp h) p hp)
    · rw [if_neg h]
      refine iff_of_true rfl ?_
      have h2 : ¬ ∀ p ∈ ds, Pokedex.validatePokemon p = [] :=
        fun hall => h ((pokedexFailures_empty_iff ds).mpr hall)
      push_neg at h2
      exact h2

theorem movesFailures_empty_iff (ds : List Json) (a : List String) :
    (movesFailures ds a).length = 0 ↔ ∀ m ∈ ds, Moves.validateMove m a = [] := by
  rw [List.length_eq_zero]
  unfold movesFailures
  rw [List.filterMap_eq_nil_iff]
  constructor
  · intro h m hm
    have h2 := h m hm
    by_contra hne
    have hpos : 0 < (Moves.validateMove m a).length := List.length_pos.mpr hne
    simp only [hpos, if_true] at h2
    exact Option.noConfusion h2
  · intro h m hm
    simp [h m hm]

theorem movesMain_spec (ds : List Json) (a : List String) :
    (movesMain ds a).1.head? = some (Event.writeReport (movesReport ds a)) ∧
    ((movesMain ds a).2 = 0 ↔ ∀ m ∈ ds, Moves.validateMove m a = []) ∧
    ((movesMain ds a).2 = 1 ↔ ∃ m ∈ ds, Moves.validateMove m a ≠ []) := by
  have hhead : (movesMain ds a).1.head? = some (Event.writeReport (movesReport ds a)) := by
    unfold movesMain
    by_cases h : (movesFailures ds a).length = 0 <;> simp [h]
  have hexit : (movesMain ds a).2 = if (movesFailures ds a).length = 0 then 0 else 1 := by
    unfold movesMain
    by_cases h : (movesFailures ds a).length = 0 <;> simp [h]
  refine ⟨hhead, ?_, ?_⟩
  · rw [hexit]
    by_cases h : (movesFailures ds a).length = 0
    · rw [if_pos h]
      exact iff_of_true rfl ((movesFailures_empty_iff ds a).mp h)
    · rw [if_neg h]
      exact iff_of_false (by decide)
        (fun hall => h ((movesFailures_empty_iff ds a).mpr hall))
  · rw [hexit]
    by_cases h : (movesFailures ds a).length = 0
    · rw [if_pos h]
      refine iff_of_false (by decide) ?_
      rintro ⟨m, hm, hne⟩
      exact hne (((movesFailures_empty_iff ds a).mp h) m hm)
    · rw [if_neg h]
      refine iff_of_true rfl ?_
      have h2 : ¬ ∀ m ∈ ds, Moves.validateMove m a = [] :=
        fun hall => h ((movesFailures_empty_iff ds a).mpr hall)
      push_neg at h2
      exact h2

theorem itemsFailures_empty_iff (ds : List Json) :
    (itemsFailures ds).length = 0 ↔ ∀ i ∈ ds, Items.validateItem i = [] := by
  rw [List.length_eq_zero]
  unfold itemsFailures
  rw [List.filterMap_eq_nil_iff]
  constructor
  · intro h i hi
    have h2 := h i hi
    by_contra hne
    have hpos : 0 < (Items.validateItem i).length := List.length_pos.mpr hne
    simp only [hpos, if_true] at h2
    exact Option.noConfusion h2
  · intro h i hi
    simp [h i hi]

theorem itemsMain_spec (ds : List Json) :
    (itemsMain ds).1.head? = some (Event.writeReport (itemsReport ds)) ∧
    ((itemsMain ds).2 = 0 ↔ ∀ i ∈ ds, Items.validateItem i = []) ∧
    ((itemsMain ds).2 = 1 ↔ ∃ i ∈ ds, Items.validateItem i ≠ []) := by
  have hhead : (itemsMain ds).1.head? = some (Event.writeReport (itemsReport ds)) := by
    unfold itemsMain
    by_cases h : (itemsFailures ds).length = 0 <;> simp [h]
  have hexit : (itemsMain ds).2 = if (itemsFailures ds).length = 0 then 0 else 1 := by
    unfold itemsMain
    by_cases h : (itemsFailures ds).length = 0 <;> simp [h]
  refine ⟨hhead, ?_, ?_⟩
  · rw [hexit]
    by_cases h : (itemsFailures ds).length = 0
    · rw [if_pos h]
      exact iff_of_true rfl ((itemsFailures_empty_iff ds).mp h)
    · rw [if_neg h]
      exact iff_of_false (by decide)
        (fun hall => h ((itemsFailures_empty_iff ds).mpr hall))
  · rw [hexit]
    by_cases h : (itemsFailures ds).length = 0
    · rw [if_pos h]
      refine iff_of_false (by decide) ?_
      rintro ⟨i, hi, hne⟩
      exact hne (((itemsFailures_empty_iff ds).mp h) i hi)
    · rw [if_neg h]
      refine iff_of_true rfl ?_
      have h2 : ¬ ∀ i ∈ ds, Items.validateItem i = [] :=
        fun hall => h ((itemsFailures_empty_iff ds).mpr hall)
      push_neg at h2
      exact h2

theorem typesFailures_empty_iff (ds : List Json) :
    (typesFailures ds).length = 0 ↔ ∀ t ∈ ds, Types.validateType t = [] := by
  rw [List.length_eq_zero]
  unfold typesFailures
  rw [List.filterMap_eq_nil_iff]
  constructor
  · intro h t ht
    have h2 := h t ht
    by_contra hne
    have hpos : 0 < (Types.validateType t).length := List.length_pos.mpr hne
    simp only [hpos, if_true] at h2
    exact Option.noConfusion h2
  · intro h t ht
    simp [h t ht]

theorem typesMain_spec (ds : List Json) :
    (typesMain ds).1.head? = some (Event.writeReport (typesReport ds)) ∧
    ((typesMain ds).2 = 0 ↔ ∀ t ∈ ds, Types.validateType t = []) ∧
    ((typesMain ds).2 = 1 ↔ ∃ t ∈ ds, Types.validateType t ≠ []) := by
  have hhead : (typesMain ds).1.head? = some (Event.writeReport (typesReport ds)) := by
    unfold typesMain
    by_cases h : (typesFailures ds).length = 0 <;> simp [h]
  have hexit : (typesMain ds).2 = if (typesFailures ds).length = 0 then 0 else 1 := by
    unfold typesMain
    by_cases h : (typesFailures ds).length = 0 <;> simp [h]
  refine ⟨hhead, ?_, ?_⟩
  · rw [hexit]
    by_cases h : (typesFailures ds).length = 0
    · rw [if_pos h]
      exact iff_of_true rfl ((typesFailures_empty_iff ds).mp h)
    · rw [if_neg h]
      exact iff_of_false (by decide)
        (fun hall => h ((typesFailures_empty_iff ds).mpr hall))
  · rw [hexit]
    by_cases h : (typesFailures ds).length = 0
    · rw [if_pos h]
      refine iff_of_false (by decide) ?_
      rintro ⟨t, ht, hne⟩
      exact hne (((typesFailures_empty_iff ds).mp h) t ht)
    · rw [if_neg h]
      refine iff_of_true rfl ?_
      have h2 : ¬ ∀ t ∈ ds, Types.validateType t = [] :=
        fun hall => h ((typesFailures_empty_iff ds).mpr hall)
      push_neg at h2
      exact h2

/-! ## Individual field checks observed in isolation -/

theorem power_not_mem_of_nonEmptyString (fs : List (String × Json)) (a : List String)
    (s : String) (hl : lookupKey fs "power" = some (Json.str s))
    (hs : isNonEmptyString (Json.str s) = true) :
    "power" ∉ Moves.validateMove (Json.obj fs) a := by
  have hks : keySatisfies fs "power" isNonEmptyString = true := by
    rw [keySatisfies_of_lookup isNonEmptyString hl]; exact hs
  rw [validateMove_obj]
  simp only [Moves.validateFields]
  refine not_mem_checkField _ _ _ _ _ _ ?_ (by decide)
  rw [checkField_pass _ _ _ _ _ hks]
  refine not_mem_checkField _ _ _ _ _ _ ?_ (by decide)
  refine not_mem_checkField _ _ _ _ _ _ ?_ (by decide)
  refine not_mem_checkField _ _ _ _ _ _ ?_ (by decide)
  refine not_mem_checkNested _ _ _ _ _ _ ?_ (by decide) (by decide)
  refine not_mem_checkField _ _ _ _ _ _ ?_ (by decide)
  exact not_mem_filter_hasKey fs Moves.REQUIRED_MOVE_KEYS "power" (hasKey_of_lookup hl)

theorem power_mem_of_number (fs : List (String × Json)) (a : List String) (n : JsNumber)
    (hl : lookupKey fs "power" = some (Json.num n)) :
    "power" ∈ Moves.validateMove (Json.obj fs) a := by
  have hks : keySatisfies fs "power" isNonEmptyString = false := by
    rw [keySatisfies_of_lookup isNonEmptyString hl]; rfl
  rw [validateMove_obj]
  simp only [Moves.validateFields]
  exact mem_checkField_mono _ _ _ _ _ _ (mem_checkField_fail _ _ _ _ _ hks)

theorem category_not_mem_of_nonEmptyString (fs : List (String × Json)) (a : List String)
    (s : String) (hl : lookupKey fs "category" = some (Json.str s))
    (hs : isNonEmptyString (Json.str s) = true) :
    "category" ∉ Moves.validateMove (Json.obj fs) a := by
  have hks : keySatisfies fs "category" isNonEmptyString = true := by
    rw [keySatisfies_of_lookup isNonEmptyString hl]; exact hs
  rw [validateMove_obj]
  simp only [Moves.validateFields]
  refine not_mem_checkField _ _ _ _ _ _ ?_ (by decide)
  refine not_mem_checkField _ _ _ _ _ _ ?_ (by decide)
  refine not_mem_checkField _ _ _ _ _ _ ?_ (by decide)
  rw [checkField_pass _ _ _ _ _ hks]
  refine not_mem_checkField _ _ _ _ _ _ ?_ (by decide)
  refine not_mem_checkNested _ _ _ _ _ _ ?_ (by decide) (by decide)
  refine not_mem_checkField _ _ _ _ _ _ ?_ (by decide)
  exact not_mem_filter_hasKey fs Moves.REQUIRED_MOVE_KEYS "category" (hasKey_of_lookup hl)

theorem ability_not_mem_of_array (fs pfs : List (String × Json)) (xs : List Json)
    (hprof : lookupKey fs "profile" = some (Json.obj pfs))
    (hab : lookupKey pfs "ability" = some (Json.arr xs)) :
    "profile.ability" ∉ Pokedex.validatePokemon (Json.obj fs) := by
  rw [validatePokemon_obj]
  simp only [Pokedex.validateFields]
  refine not_mem_checkProfile_ability _ fs pfs xs ?_ hprof hab
  refine not_mem_checkField _ _ _ _ _ _ ?_ (by decide)
  refine not_mem_checkField _ _ _ _ _ _ ?_ (by decide)
  refine not_mem_checkField _ _ _ _ _ _ ?_ (by decide)
  refine not_mem_checkNested _ _ _ _ _ _ ?_ (by decide) (by decide)
  refine not_mem_checkField _ _ _ _ _ _ ?_ (by decide)
  refine not_mem_checkNested _ _ _ _ _ _ ?_ (by decide) (by decide)
  refine not_mem_checkField _ _ _ _ _ _ ?_ (by decide)
  exact not_mem_filter_of_not_mem Pokedex.REQUIRED_POKEMON_KEYS _ "profile.ability" (by decide)

/-! ## The verified claims -/

/-- Claim C1: for every record in which every required top-level field and
every required nested sub-field is present with the correct shape
(non-empty strings after trimming, genuine non-NaN numbers where numeric,
arrays of strings where specified — the data model's `type` being a
non-empty such array — and objects where nested), the record validator of
each dataset returns an empty failure list. -/
theorem claim_C1 : ∀ (j : Json) (allowedTypes : List String),
    (conformsPokemon j = true → Pokedex.validatePokemon j = []) ∧
    (conformsMove j = true → Moves.validateMove j allowedTypes = []) ∧
    (conformsItem j = true → Items.validateItem j = []) ∧
    (conformsType j = true → Types.validateType j = []) :=
  fun j a => ⟨validatePokemon_complete j, validateMove_complete j a,
    validateItem_complete j, validateType_complete j⟩

/-- Witness for C1: a concrete fully conforming record of each dataset
validates with an empty failure list. -/
theorem claim_C1_witness :
    Pokedex.validatePokemon samplePokemon = [] ∧
    Moves.validateMove sampleMove [] = [] ∧
    Items.validateItem sampleItem = [] ∧
    Types.validateType sampleType = [] :=
  ⟨(claim_C1 samplePokemon []).1 (by decide),
   (claim_C1 sampleMove []).2.1 (by decide),
   (claim_C1 sampleItem []).2.2.1 (by decide),
   (claim_C1 sampleType []).2.2.2 (by decide)⟩

/-- Claim C2: for every non-object input (null, a string, a number, or an
array), each record validator returns exactly the full list of its
dataset's top-level required field names in canonical declared order; for
arrays this follows from the per-key checks, since the typeof guard does
not catch them. -/
theorem claim_C2 : ∀ (j : Json) (allowedTypes : List String), nonObjectInput j = true →
    Pokedex.validatePokemon j =
      ["id", "name", "type", "base", "species", "description", "evolution", "profile"] ∧
    Moves.validateMove j allowedTypes =
      ["id", "name", "type", "category", "pp", "power", "accuracy"] ∧
    Items.validateItem j = ["id", "name", "type", "description"] ∧
    Types.validateType j =
      ["english", "chinese", "japanese", "effective", "ineffective", "no_effect"] := by
  intro j a h
  cases j with
  | null => exact ⟨rfl, rfl, rfl, rfl⟩
  | str s => exact ⟨rfl, rfl, rfl, rfl⟩
  | num n => exact ⟨rfl, rfl, rfl, rfl⟩
  | arr xs => exact ⟨rfl, rfl, rfl, rfl⟩
  | bool b => exact absurd h (by simp [nonObjectInput])
  | obj fs => exact absurd h (by simp [nonObjectInput])

/-- Witness for C2: the empty array is a non-object input on which
`validatePokemon` reports every top-level required key in order. -/
theorem claim_C2_witness :
    nonObjectInput (Json.arr []) = true ∧
    Pokedex.validatePokemon (Json.arr []) =
      ["id", "name", "type", "base", "species", "description", "evolution", "profile"] :=
  ⟨by decide, (claim_C2 (Json.arr []) [] (by decide)).1⟩

/-- Counterexample to C3 as stated: the scenario record (conforming except
that `profile.gender` is absent and `base.Speed` is a string, as witnessed
by its repaired variant conforming) yields the failure list
`["base.Speed", "profile.gender"]`, not `["profile.gender", "base.Speed"]`:
`base` is scanned before `profile`. -/
theorem claim_C3_counterexample :
    conformsPokemon scenario1Repaired = true ∧
    Pokedex.validatePokemon scenario1Pokemon ≠ ["profile.gender", "base.Speed"] ∧
    Pokedex.validatePokemon scenario1Pokemon = ["base.Speed", "profile.gender"] :=
  ⟨by decide, by decide, by decide⟩

/-- Claim C3 as amended: a Pokemon record that conforms in every respect
except that `profile.gender` is absent and `base.Speed` is a string
yields exactly the failure list `["base.Speed", "profile.gender"]`, in
that order (top-level scan order checks `base` before `profile`). -/
theorem claim_C3 :
    Pokedex.validatePokemon scenario1Pokemon = ["base.Speed", "profile.gender"] := by
  decide

/-- Claim C4: for every input record and every record validator, each
field name appears at most once in the returned failure list. -/
theorem claim_C4 : ∀ (j : Json) (allowedTypes : List String),
    (Pokedex.validatePokemon j).Nodup ∧ (Moves.validateMove j allowedTypes).Nodup ∧
    (Items.validateItem j).Nodup ∧ (Types.validateType j).Nodup :=
  fun j a => ⟨validatePokemon_nodup j, validateMove_nodup j a, validateItem_nodup j,
    validateType_nodup j⟩

/-- Claim C5: `validateMove` never reads its `allowedTypes` argument — for
every move record and any two allow-lists the failure lists coincide. -/
theorem claim_C5 : ∀ (m : Json) (a b : List String),
    Moves.validateMove m a = Moves.validateMove m b :=
  fun _ _ _ => rfl

/-- Claim C6: every validator program writes its report file first (in
every run, before any console output or outcome), and its exit code is 0
exactly when no record fails validation and 1 exactly when some record
has a non-empty failure list. -/
theorem claim_C6 : ∀ (pokedexDs movesDs itemsDs typesDs : List Json)
    (allowedTypes : List String),
    ((pokedexMain pokedexDs).1.head? = some (Event.writeReport (pokedexReport pokedexDs)) ∧
      ((pokedexMain pokedexDs).2 = 0 ↔ ∀ p ∈ pokedexDs, Pokedex.validatePokemon p = []) ∧
      ((pokedexMain pokedexDs).2 = 1 ↔ ∃ p ∈ pokedexDs, Pokedex.validatePokemon p ≠ [])) ∧
    ((movesMain movesDs allowedTypes).1.head? =
        some (Event.writeReport (movesReport movesDs allowedTypes)) ∧
      ((movesMain movesDs allowedTypes).2 = 0 ↔
        ∀ m ∈ movesDs, Moves.validateMove m allowedTypes = []) ∧
      ((movesMain movesDs allowedTypes).2 = 1 ↔
        ∃ m ∈ movesDs, Moves.validateMove m allowedTypes ≠ [])) ∧
    ((itemsMain itemsDs).1.head? = some (Event.writeReport (itemsReport itemsDs)) ∧
      ((itemsMain itemsDs).2 = 0 ↔ ∀ i ∈ itemsDs, Items.validateItem i = []) ∧
      ((itemsMain itemsDs).2 = 1 ↔ ∃ i ∈ itemsDs, Items.validateItem i ≠ [])) ∧
    ((typesMain typesDs).1.head? = some (Event.writeReport (typesReport typesDs)) ∧
      ((typesMain typesDs).2 = 0 ↔ ∀ t ∈ typesDs, Types.validateType t = []) ∧
      ((typesMain typesDs).2 = 1 ↔ ∃ t ∈ typesDs, Types.validateType t ≠ [])) :=
  fun p m i t a => ⟨pokedexMain_spec p, movesMain_spec m a, itemsMain_spec i, typesMain_spec t⟩

/-- Claim C7: for a move record, a `power` value that is a string passing
the validator's trim-aware non-empty test (the spec's notion of non-empty
string, e.g. the em-dash) produces no `power` failure, while a `power`
value that is a number always produces a `power` failure — regardless of
every other field. -/
theorem claim_C7 : ∀ (fs : List (String × Json)) (allowedTypes : List String)
    (s : String) (n : JsNumber),
    (lookupKey fs "power" = some (Json.str s) → isNonEmptyString (Json.str s) = true →
      "power" ∉ Moves.validateMove (Json.obj fs) allowedTypes) ∧
    (lookupKey fs "power" = some (Json.num n) →
      "power" ∈ Moves.validateMove (Json.obj fs) allowedTypes) :=
  fun fs a s n =>
    ⟨fun hl hs => power_not_mem_of_nonEmptyString fs a s hl hs,
     fun hl => power_mem_of_number fs a n hl⟩

/-- Witness for C7: a move with `power: "—"` has no power failure; the
same move with `power: 90` has one. -/
theorem claim_C7_witness :
    "power" ∉ Moves.validateMove (Json.obj moveDashFields) [] ∧
    "power" ∈ Moves.validateMove (Json.obj moveNumericFields) [] :=
  ⟨(claim_C7 moveDashFields [] "—" JsNumber.nan).1 rfl (by decide),
   (claim_C7 moveNumericFields [] "—" (JsNumber.val 90)).2 rfl⟩

/-- Claim C8: every record validator is a pure function of its input, so
validating the same record twice yields identical failure lists. -/
theorem claim_C8 : ∀ (j : Json) (allowedTypes : List String),
    Pokedex.validatePokemon j = Pokedex.validatePokemon j ∧
    Moves.validateMove j allowedTypes = Moves.validateMove j allowedTypes ∧
    Items.validateItem j = Items.validateItem j ∧
    Types.validateType j = Types.validateType j :=
  fun _ _ => ⟨rfl, rfl, rfl, rfl⟩

/-- Claim C9: `validatePokemon` checks `profile.ability` only with
`Array.isArray`; any array value whatsoever — including arrays of numbers
or nulls — produces no `profile.ability` failure. -/
theorem claim_C9 : ∀ (fs pfs : List (String × Json)) (xs : List Json),
    lookupKey fs "profile" = some (Json.obj pfs) →
    lookupKey pfs "ability" = some (Json.arr xs) →
    "profile.ability" ∉ Pokedex.validatePokemon (Json.obj fs) :=
  fun fs pfs xs hp ha => ability_not_mem_of_array fs pfs xs hp ha

/-- Witness for C9: a record whose ability list is `[7, null]` (no pair
shape anywhere) still gets no `profile.ability` failure. -/
theorem claim_C9_witness :
    "profile.ability" ∉ Pokedex.validatePokemon (Json.obj abilityJunkFields) :=
  claim_C9 abilityJunkFields
    [("ability", Json.arr [Json.num (JsNumber.val 7), Json.null])]
    [Json.num (JsNumber.val 7), Json.null] rfl rfl

/-- Claim C10: `validateMove` checks `category` only as a (trim-aware)
non-empty string; any such string outside the declared enumeration, like
"Banana", produces no `category` failure — enumeration membership is
never checked. -/
theorem claim_C10 : ∀ (fs : List (String × Json)) (allowedTypes : List String) (s : String),
    lookupKey fs "category" = some (Json.str s) → isNonEmptyString (Json.str s) = true →
    "category" ∉ Moves.validateMove (Json.obj fs) allowedTypes :=
  fun fs a s hl hs => category_not_mem_of_nonEmptyString fs a s hl hs

/-- Witness for C10: a move with `category: "Banana"` has no category
failure. -/
theorem claim_C10_witness :
    "category" ∉ Moves.validateMove (Json.obj moveBananaFields) [] :=
  claim_C10 moveBananaFields [] "Banana" rfl (by decide)
